import Mathlib

set_option maxRecDepth 40000

/-! Verification development for spine-to-godot-scene.py.

The program builds an in-memory tree (a root node owning external resources,
animation sub-resources and child nodes) from parsed Spine JSON files and
serializes it to a Godot scene document.  File reading, argument parsing and
the marker-file check are I/O glue outside the model; every input file arrives
here already parsed as a `SpineJson` value (its path plus the key lists of the
top-level `animations` and `skins` mappings, `none` when the key is absent).

Python's `set` iteration order over strings is not fixed across interpreter
runs; the single place the program iterates a set (`nodes_with_skins` in
`MainNode.fix_spine_sub_resources`) is therefore modelled by an explicit
enumeration function `pick` taking the (duplicate-carrying) list of node names
to the iteration order of the set built from it.  `SetPick` captures exactly
what Python guarantees: the enumeration is duplicate-free and has the same
membership as its argument. -/

/-- Characters treated as indentation by textwrap.dedent (space and tab). -/
def isIndentChar (c : Char) : Bool := c == ' ' || c == '\t'

/-- Worker for `splitNl`: `cur` is the current line reversed, `acc` the
finished lines reversed.  Tail recursive so documents of a few thousand
characters evaluate inside the kernel. -/
def splitNlAux : List Char → List Char → List (List Char) → List (List Char)
  | [], cur, acc => (cur.reverse :: acc).reverse
  | '\n' :: rest, cur, acc => splitNlAux rest [] (cur.reverse :: acc)
  | c :: rest, cur, acc => splitNlAux rest (c :: cur) acc

/-- Split a character list on newline characters.  Mirrors how Python regexes
with re.MULTILINE see a text as lines; always returns at least one line. -/
def splitNl (l : List Char) : List (List Char) := splitNlAux l [] []

/-- Worker for `joinNl`: `acc` holds the output so far, reversed. -/
def joinNlAux : List (List Char) → List Char → List Char
  | [], acc => acc.reverse
  | [l], acc => (l.reverseAux acc).reverse
  | l :: ls, acc => joinNlAux ls ('\n' :: l.reverseAux acc)

/-- Inverse of `splitNl`: join lines with newline characters. -/
def joinNl (ls : List (List Char)) : List Char := joinNlAux ls []

/-- Normalization step of textwrap.dedent: a line consisting solely of
whitespace is replaced by an empty line. -/
def normWsLine (l : List Char) : List Char :=
  if l ≠ [] ∧ l.all isIndentChar then [] else l

/-- Leading-whitespace of a line, but only for lines that contain at least one
non-whitespace character (mirrors textwrap's leading-whitespace regex which
requires a following non-whitespace character). -/
def lineIndent (l : List Char) : Option (List Char) :=
  if l.any (fun c => !(isIndentChar c)) then some (l.takeWhile isIndentChar) else none

/-- Longest common prefix of two character lists. -/
def commonPfx : List Char → List Char → List Char
  | a :: as, b :: bs => if a = b then a :: commonPfx as bs else []
  | _, _ => []

/-- Model of Python textwrap.dedent: normalize whitespace-only lines to empty,
compute the margin as the longest common leading whitespace of all non-blank
lines, then strip that margin from every line that starts with it.  The source
applies this to already-formatted strings, so embedded values participate in
the margin computation exactly as in Python. -/
def pydedent (s : String) : String :=
  let lines := (splitNl s.data).map normWsLine
  let indents := lines.filterMap lineIndent
  let margin :=
    match indents with
    | [] => ([] : List Char)
    | i :: is => is.foldl commonPfx i
  ⟨joinNl (lines.map (fun l => if margin.isPrefixOf l then l.drop margin.length else l))⟩

/-- Characters stripped by Python str.strip() with no argument. -/
def isPyWs (c : Char) : Bool :=
  c == ' ' || c == '\t' || c == '\n' || c == '\r' || c == '\x0b' || c == '\x0c'

/-- Model of Python str.strip(): remove leading and trailing whitespace. -/
def pyStrip (s : String) : String :=
  ⟨((s.data.dropWhile isPyWs).reverse.dropWhile isPyWs).reverse⟩

/-- Fuelled worker for `pyReplace`; the fuel is the input length, enough since
each step consumes at least one character when the pattern is non-empty. -/
def replaceFuel (pat rep : List Char) : Nat → List Char → List Char
  | 0, l => l
  | _ + 1, [] => []
  | fuel + 1, c :: rest =>
    if pat ≠ [] ∧ pat.isPrefixOf (c :: rest) then
      rep ++ replaceFuel pat rep fuel ((c :: rest).drop pat.length)
    else
      c :: replaceFuel pat rep fuel rest

/-- Model of Python str.replace: replace every non-overlapping occurrence of
`pat` by `rep`, scanning left to right. -/
def pyReplace (s pat rep : String) : String :=
  ⟨replaceFuel pat.data rep.data s.data.length s.data⟩

/-- Model of posix os.path.basename: the part of the path after the last
slash. -/
def pyBasename (s : String) : String :=
  ⟨(s.data.reverse.takeWhile (fun c => c ≠ '/')).reverse⟩

/-- Parsed content of one Spine JSON input file: the key lists of the
top-level `animations` and `skins` mappings, in file order, or `none` when
the key is absent (in which case the Python code raises a KeyError). -/
structure SpineJson where
  animations : Option (List String)
  skins : Option (List String)
  deriving DecidableEq

/-- ExtResource descriptor: path and type of one external resource.  The
serialization id is not stored: the source assigns it positionally (i + 1)
while rendering, which `assignExtIds` models. -/
structure ExtResource where
  resource_path : String
  resource_type : String
  deriving DecidableEq

/-- Animation sub-resource, the two concrete variants of the Python class
hierarchy SubResourceAnimation / SubResourceSpine: `play` is
SubResourceSpinePlay, `skin` is SubResourceSpineSkin whose `tracks` list holds
the node name each track addresses (the source stores the formatted track
text; the numeric track index it bakes in equals the list position since
tracks are append-only, so storing node names is equivalent). -/
inductive SubResource where
  | play (base_resource_name node_name : String)
  | skin (base_resource_name node_name : String) (tracks : List String)
  deriving DecidableEq

/-- Derived display name, set in the constructors of SubResourceSpinePlay and
SubResourceSpineSkin. -/
def SubResource.resource_name : SubResource → String
  | .play b n => n ++ "__" ++ b
  | .skin b n _ => n ++ "__skin__" ++ b

/-- Mirror of isinstance(sr, SubResourceAnimation): every sub-resource the
program creates derives from SubResourceAnimation, so this is always true. -/
def SubResource.isSubResourceAnimation : SubResource → Bool
  | _ => true

/-- Failures of the build: `malformedInput` models the KeyError raised when an
input file lacks the `animations` or `skins` key (the spec's
MalformedInputError), `assertionFailed` the assert in add_animation_player,
`missingPlayer` the AttributeError fix_spine_sub_resources would raise if no
animation player had been attached. -/
inductive BuildError where
  | malformedInput (path : String)
  | assertionFailed
  | missingPlayer
  deriving DecidableEq

/-- Children of the root node: SpineNode (name, 0-based index, 1-based
reference to its external resource), ExtraNode (opaque pre-formatted text),
AnimationPlayerNode (name, index, bound (id, sub-resource) pairs). -/
inductive ChildNode where
  | spine (name : String) (index : Nat) (ext_resource_i : Nat)
  | extra (data : String)
  | player (name : String) (index : Nat) (animations : List (Nat × SubResource))
  deriving DecidableEq

/-- The root MainNode state.  `animation_player` holds the position in
`children` of the node the Python attribute self.animation_player refers to
(the object appended by the most recent add_animation_player call). -/
structure MainNode where
  name : String := ""
  node_type : String := ""
  parent : Option String := none
  index : Option Nat := none
  script : Option String := none
  load_steps : Option Nat := none
  ext_resources : List ExtResource := []
  sub_resources : List SubResource := []
  children : List ChildNode := []
  animation_player : Option Nat := none
  deriving DecidableEq, Inhabited

/-- MainNode.add_ext_resource: append an external resource descriptor. -/
def MainNode.add_ext_resource (m : MainNode) (resource_path resource_type : String) : MainNode :=
  { m with ext_resources := m.ext_resources ++ [⟨resource_path, resource_type⟩] }

/-- MainNode constructor: store the fields and, when a script is given,
register it as an external resource immediately, so it is always first. -/
def mkMainNode (name node_type : String) (script : Option String) : MainNode :=
  let m : MainNode := { name := name, node_type := node_type, script := script }
  match script with
  | some s => m.add_ext_resource s "Script"
  | none => m

/-- MainNode.add_extra_file: append an ExtraNode whose text has the literal
placeholder for the index substituted with the current child count (the only
substitution the data.format(index=...) call performs on well-formed input). -/
def MainNode.add_extra_file (m : MainNode) (data : String) : MainNode :=
  { m with children :=
      m.children ++ [ChildNode.extra (pyReplace data "\x7bindex\x7d" (toString m.children.length))] }

/-- Node name derived in add_spine_child: spine_ prefix plus the basename with
every occurrence of the substring .json removed, then remaining dots replaced
by underscores. -/
def nodeNameOf (json_file : String) : String :=
  "spine_" ++ pyReplace (pyReplace (pyBasename json_file) ".json" "") "." "_"

/-- MainNode.add_spine_child: register the file as an external resource,
append the SpineNode child (its ext_resource_i is the resource count after the
append), then create one play sub-resource per animation name and one skin
sub-resource per skin name; a missing `animations` or `skins` key aborts with
an error exactly where the Python lookup would raise. -/
def MainNode.add_spine_child (m : MainNode) (json_file : String) (json_data : SpineJson)
    (index : Nat) : Except BuildError MainNode :=
  let m1 := m.add_ext_resource json_file "SpineResource"
  let node_name := nodeNameOf json_file
  let m2 := { m1 with children :=
      m1.children ++ [ChildNode.spine node_name index m1.ext_resources.length] }
  match json_data.animations with
  | none => .error (.malformedInput json_file)
  | some animation_names =>
    let m3 := { m2 with sub_resources :=
        m2.sub_resources ++ animation_names.map (fun a => SubResource.play a node_name) }
    match json_data.skins with
    | none => .error (.malformedInput json_file)
    | some skin_names =>
      .ok { m3 with sub_resources :=
          m3.sub_resources ++ skin_names.map (fun s => SubResource.skin s node_name [node_name]) }

/-- MainNode.add_animation_player: assert self.parent is None, then append the
AnimationPlayerNode with index equal to the current child count and remember
it as the current player.  Nothing prevents a second call. -/
def MainNode.add_animation_player (m : MainNode) : Except BuildError MainNode :=
  match m.parent with
  | some _ => .error .assertionFailed
  | none =>
    .ok { m with
          children := m.children ++ [ChildNode.player "animation" m.children.length []],
          animation_player := some m.children.length }

/-- Node names of all skin sub-resources, duplicates and order preserved
(the generator expression fed to set(...) in fix_spine_sub_resources). -/
def skinNodeNames (subs : List SubResource) : List String :=
  subs.filterMap (fun sr =>
    match sr with
    | .skin _ node_name _ => some node_name
    | _ => none)

/-- Code-point lexicographic comparison of character lists: exactly the
comparison Python performs on str values (and the order underlying the String
order instances). -/
def strLtB : List Char → List Char → Bool
  | _, [] => false
  | [], _ :: _ => true
  | a :: as, b :: bs =>
    if Nat.blt a.toNat b.toNat then true
    else if Nat.blt b.toNat a.toNat then false
    else strLtB as bs

/-- Stable insertion into a list sorted by resource_name: walk past strictly
smaller keys, so an inserted element lands before equal keys, preserving the
original relative order of equal keys exactly as Python's stable sort does. -/
def stableInsert (a : SubResource) : List SubResource → List SubResource
  | [] => [a]
  | b :: bs =>
    if strLtB b.resource_name.data a.resource_name.data then b :: stableInsert a bs
    else a :: b :: bs

/-- Model of sorted(subs, key=attrgetter('resource_name')): Python's sort is
stable, and a stable sort by a fixed key is unique, so this stable insertion
sort computes the same list. -/
def sortByName : List SubResource → List SubResource
  | [] => []
  | a :: as => stableInsert a (sortByName as)

/-- Model of Python enumerate with a given start index. -/
def enumerateFrom {α : Type} (k : Nat) : List α → List (Nat × α)
  | [] => []
  | a :: as => (k, a) :: enumerateFrom (k + 1) as

/-- Serialization-time id assignment for sub-resources (MainNode.__str__):
sort by resource_name, then give position i the id i + 1. -/
def assignIds (subs : List SubResource) : List (Nat × SubResource) :=
  (enumerateFrom 0 (sortByName subs)).map (fun p => (p.1 + 1, p.2))

/-- Binding pass of fix_spine_sub_resources: enumerate the same sorted list
and record (i + 1, sub_resource) for every sub-resource that is a
SubResourceAnimation (all of them are). -/
def bindAnimations (subs : List SubResource) : List (Nat × SubResource) :=
  (enumerateFrom 0 (sortByName subs)).filterMap
    (fun p => if p.2.isSubResourceAnimation then some (p.1 + 1, p.2) else none)

/-- Serialization-time id assignment for external resources
(MainNode.__str__): registration order, 1-based. -/
def assignExtIds (l : List ExtResource) : List (Nat × ExtResource) :=
  (enumerateFrom 0 l).map (fun p => (p.1 + 1, p.2))

/-- Track synchronization applied to one sub-resource: a skin-change gains one
track per enumerated node name other than its own, in enumeration order; play
sub-resources are untouched. -/
def addSkinTracks (nodes_with_skins : List String) : SubResource → SubResource
  | .skin b n tracks =>
    .skin b n (tracks ++ nodes_with_skins.filter (fun node_name => node_name != n))
  | sr => sr

/-- Append the bound animations onto the player child at position `idx`
(mirrors mutation of the object self.animation_player refers to). -/
def setPlayerAnims (children : List ChildNode) (idx : Nat)
    (anims : List (Nat × SubResource)) : List ChildNode :=
  match children[idx]? with
  | some (ChildNode.player nm i old) => children.set idx (ChildNode.player nm i (old ++ anims))
  | _ => children

/-- Body of fix_spine_sub_resources once the player exists: build the set of
skin-bearing node names, iterate it in the order `pick` gives, add the missing
tracks to every skin sub-resource, then bind all sub-resources to the player
in sorted order with their 1-based ids. -/
def fixPure (pick : List String → List String) (m : MainNode) (idx : Nat) : MainNode :=
  let nodes_with_skins := pick (skinNodeNames m.sub_resources)
  let newSubs := m.sub_resources.map (addSkinTracks nodes_with_skins)
  { m with
    sub_resources := newSubs,
    children := setPlayerAnims m.children idx (bindAnimations newSubs) }

/-- MainNode.fix_spine_sub_resources; fails (AttributeError) if no animation
player was ever attached. -/
def MainNode.fix_spine_sub_resources (pick : List String → List String) (m : MainNode) :
    Except BuildError MainNode :=
  match m.animation_player with
  | none => .error .missingPlayer
  | some idx => .ok (fixPure pick m idx)

/-- MainNode.set_load_steps: external count + sub-resource count + 1. -/
def MainNode.set_load_steps (m : MainNode) : MainNode :=
  { m with load_steps := some (m.ext_resources.length + m.sub_resources.length + 1) }

/-- The enumerated add_spine_child loop of build_tree. -/
def addSpineFold (files : List (Nat × (String × SpineJson))) (m : MainNode) :
    Except BuildError MainNode :=
  files.foldlM (fun acc p => acc.add_spine_child p.2.1 p.2.2 p.1) m

/-- Optional extra-child step of build_tree. -/
def attachExtra (m : MainNode) (extra : Option String) : MainNode :=
  match extra with
  | some data => m.add_extra_file data
  | none => m

/-- build_tree: construct the root, attach every input file at its 0-based
position, optionally attach the extra child, attach the animation player, run
the skin-track synchronizer and bind animations, then compute load_steps. -/
def build_tree (pick : List String → List String) (files : List (String × SpineJson))
    (node_name node_type : String) (extra : Option String) (script : Option String) :
    Except BuildError MainNode :=
  match addSpineFold (enumerateFrom 0 files) (mkMainNode node_name node_type script) with
  | .error e => .error e
  | .ok m1 =>
    let m2 := attachExtra m1 extra
    match m2.add_animation_player with
    | .error e => .error e
    | .ok m3 =>
      match m3.fix_spine_sub_resources pick with
      | .error e => .error e
      | .ok m4 => .ok m4.set_load_steps

/-- ExtResource.__str__ with the id the serializer assigned.  The template is
transcribed with its source indentation and dedented like the Python code. -/
def ExtResource.render (e : ExtResource) (i : Nat) : String :=
  pydedent ("            [ext_resource path=\"res://" ++ e.resource_path ++ "\" type=\"" ++
    e.resource_type ++ "\" id=" ++ toString i ++ "]\n            ")

/-- Track text of SubResourceSpineSkin.add_track for the track at position
`i`, addressing `node_name` and keying the skin's base resource name. -/
def trackStr (i : Nat) (node_name base_resource_name : String) : String :=
  pydedent ("            tracks/" ++ toString i ++ "/type = \"value\"\n            tracks/" ++
    toString i ++ "/path = NodePath(\"" ++ node_name ++ ":playback/skin\")\n            tracks/" ++
    toString i ++ "/interp = 1\n            tracks/" ++
    toString i ++ "/loop_wrap = true\n            tracks/" ++
    toString i ++ "/imported = false\n            tracks/" ++
    toString i ++ "/enabled = true\n            tracks/" ++
    toString i ++ "/keys = \x7b\n            \"times\": PoolRealArray( 0 ),\n            \"transitions\": PoolRealArray( 1 ),\n            \"update\": 1,\n            \"values\": [ \"" ++
    base_resource_name ++ "\" ]\n            \x7d\n            ")

/-- SubResourceSpinePlay.__str__. -/
def playStr (i : Nat) (resource_name node_name base_resource_name : String) : String :=
  pydedent ("            [sub_resource type=\"Animation\" id=" ++ toString i ++
    "]\n\n            resource_name = \"" ++ resource_name ++
    "\"\n            length = 1.0\n            loop = false\n            step = 0.1\n            tracks/0/type = \"value\"\n            tracks/0/path = NodePath(\"" ++
    node_name ++
    ":playback/play\")\n            tracks/0/interp = 1\n            tracks/0/loop_wrap = false\n            tracks/0/imported = false\n            tracks/0/enabled = true\n            tracks/0/keys = \x7b\n            \"times\": PoolRealArray( 0, 1 ),\n            \"transitions\": PoolRealArray( 1, 1 ),\n            \"update\": 1,\n            \"values\": [ \"" ++
    base_resource_name ++ "\", \"[stop]\" ]\n            \x7d\n\n            ")

/-- Header part of SubResourceSpineSkin.__str__. -/
def skinHeaderStr (i : Nat) (resource_name : String) : String :=
  pydedent ("            [sub_resource type=\"Animation\" id=" ++ toString i ++
    "]\n\n            resource_name = \"" ++ resource_name ++
    "\"\n            length = 0.01\n            loop = false\n            step = 0.1\n            ")

/-- SubResourceSpineSkin.__str__: header, the tracks in order (each was
rendered and dedented at add_track time with its position as index), then one
extra newline. -/
def skinStr (i : Nat) (resource_name base_resource_name : String) (tracks : List String) :
    String :=
  (skinHeaderStr i resource_name ++
    String.join ((enumerateFrom 0 tracks).map (fun p => trackStr p.1 p.2 base_resource_name))) ++
    "\n"

/-- Dispatch of str(sub_resource) given the assigned id. -/
def SubResource.render : SubResource → Nat → String
  | .play b n, i => playStr i (SubResource.resource_name (.play b n)) n b
  | .skin b n tracks, i => skinStr i (SubResource.resource_name (.skin b n tracks)) b tracks

/-- SpineNode.__str__; the node_type is the class constant Spine and the
parent is the literal root reference the node was constructed with. -/
def spineNodeStr (name : String) (index : Nat) (ext_resource_i : Nat) : String :=
  pydedent ("            [node name=\"" ++ name ++
    "\" type=\"Spine\" parent=\".\" index=\"" ++ toString index ++
    "\"]\n\n            process_mode = 1\n            speed = 1.0\n            active = true\n            skip_frames = 0\n            debug_bones = false\n            flip_x = false\n            flip_y = false\n            fx_prefix = \"fx/\"\n            resource = ExtResource( " ++
    toString ext_resource_i ++
    " )\n            playback/play = \"[stop]\"\n            playback/loop = true\n            playback/forward = true\n            playback/skin = \"default\"\n            debug/region = false\n            debug/mesh = false\n            debug/skinned_mesh = false\n            debug/bounding_box = false\n            _sections_unfolded = [ \"playback\", \"Transform\", \"Visibility\" ]\n\n            ")

/-- AnimationPlayerNode.__str__: the header block is dedented, embedded into a
second dedented template, then the anims lines and the blend_times line are
appended. -/
def playerNodeStr (name : String) (index : Nat) (anims : List (Nat × SubResource)) : String :=
  let out1 := pydedent ("            [node name=\"" ++ name ++
    "\" type=\"AnimationPlayer\" parent=\".\" index=\"" ++ toString index ++ "\"]\n\n            ")
  let out2 := pydedent ("            " ++ out1 ++
    "\n            root_node = NodePath(\"..\")\n            autoplay = \"\"\n            playback_process_mode = 1\n            playback_default_blend_time = 0.0\n            playback_speed = 1.0\n            ")
  let out3 := out2 ++ String.join (anims.map (fun p =>
    "anims/" ++ p.2.resource_name ++ " = SubResource( " ++ toString p.1 ++ " )\n"))
  out3 ++ "blend_times = [  ]\n"

/-- Dispatch of str(child). -/
def ChildNode.render : ChildNode → String
  | .spine name index ext_i => spineNodeStr name index ext_i
  | .extra data => data
  | .player name index anims => playerNodeStr name index anims

/-- Script property line of MainNode.__str__ (the script is guaranteed to be
the first external resource, so the reference is hard-coded to 1). -/
def scriptLinePart (m : MainNode) : String :=
  match m.script with
  | some _ => "script = ExtResource( 1 )\n\n"
  | none => ""

/-- MainNode.__str__: external resources in registration order with ids
i + 1, a separating newline when any exist, sub-resources in sorted order with
their assigned ids, the root node block (the whole accumulated text passes
through the dedent exactly as in the source), the script line when a script is
present, every child in order, and finally the load_steps header prepended in
front of the stripped body. -/
def MainNode.render (m : MainNode) : String :=
  let extPart := String.join ((assignExtIds m.ext_resources).map (fun p => p.2.render p.1))
  let out1 := if extPart = "" then extPart else extPart ++ "\n"
  let out2 := out1 ++ String.join ((assignIds m.sub_resources).map (fun p => p.2.render p.1))
  let out3 :=
    match m.parent with
    | none => pydedent ("                " ++ out2 ++ "\n                [node name=\"" ++
        m.name ++ "\" type=\"" ++ m.node_type ++ "\"]\n\n                ")
    | some _ => out2
  let out4 := out3 ++ scriptLinePart m
  let out5 := out4 ++ String.join (m.children.map ChildNode.render)
  match m.load_steps with
  | some n => "[gd_scene load_steps=" ++ toString n ++ " format=2]" ++ "\n\n" ++ pyStrip out5
  | none => out5

/-- The core as main() drives it: build the tree and produce the single output
string, or produce no output at all when the build fails. -/
def runCore (pick : List String → List String) (files : List (String × SpineJson))
    (node_name node_type : String) (extra : Option String) (script : Option String) :
    Option String :=
  (build_tree pick files node_name node_type extra script).toOption.map MainNode.render

/-- Recognizer for SpineNode children. -/
def ChildNode.isSpine : ChildNode → Bool
  | .spine _ _ _ => true
  | _ => false

/-- Recognizer for AnimationPlayerNode children. -/
def ChildNode.isPlayer : ChildNode → Bool
  | .player _ _ _ => true
  | _ => false

/-- Number of SpineNode children (= source-node blocks in the document). -/
def countSpine (children : List ChildNode) : Nat := children.countP ChildNode.isSpine

/-- Number of AnimationPlayerNode children. -/
def countPlayers (children : List ChildNode) : Nat := children.countP ChildNode.isPlayer

/-- The animation list of the node self.animation_player refers to. -/
def playerAnims (m : MainNode) : Option (List (Nat × SubResource)) :=
  match m.animation_player with
  | none => none
  | some idx =>
    match m.children[idx]? with
    | some (ChildNode.player _ _ anims) => some anims
    | _ => none

/-- Admissible set-enumeration functions: what Python guarantees about
iterating set(l) — a duplicate-free sequence with the membership of l.  The
iteration ORDER is not specified and differs between interpreter runs. -/
def SetPick (pick : List String → List String) : Prop :=
  ∀ l : List String, (pick l).Nodup ∧ ∀ x : String, x ∈ pick l ↔ x ∈ l

/-- One admissible enumeration: deduplication. -/
def pickDedup (l : List String) : List String := l.dedup

/-- Another admissible enumeration: reversed deduplication. -/
def pickRevDedup (l : List String) : List String := l.dedup.reverse

instance instDecEqExcept {ε α : Type} [DecidableEq ε] [DecidableEq α] :
    DecidableEq (Except ε α) := fun a b =>
  match a, b with
  | .ok x, .ok y =>
    if h : x = y then .isTrue (by rw [h]) else .isFalse (fun hh => h (Except.ok.inj hh))
  | .error x, .error y =>
    if h : x = y then .isTrue (by rw [h]) else .isFalse (fun hh => h (Except.error.inj hh))
  | .ok _, .error _ => .isFalse (fun hh => Except.noConfusion hh)
  | .error _, .ok _ => .isFalse (fun hh => Except.noConfusion hh)

/-- The explicit comparison agrees with lexicographic ordering of character
lists. -/
theorem strLtB_iff_lex : ∀ x y : List Char, strLtB x y = true ↔ List.Lex (· < ·) x y := by
  intro x
  induction x with
  | nil =>
    intro y
    cases y with
    | nil =>
      constructor
      · intro h; exact absurd h (by simp [strLtB])
      · intro h; exact absurd h (fun h => nomatch h)
    | cons b bs =>
      constructor
      · intro _; exact List.Lex.nil
      · intro _; rfl
  | cons a as ih =>
    intro y
    cases y with
    | nil =>
      constructor
      · intro h; exact absurd h (by simp [strLtB])
      · intro h; exact absurd h (fun h => nomatch h)
    | cons b bs =>
      rcases lt_trichotomy a b with hlt | heq | hgt
      · have hb : Nat.blt a.toNat b.toNat = true := by
          rw [Nat.blt_eq]; exact hlt
        constructor
        · intro _; exact List.Lex.rel hlt
        · intro _; simp [strLtB, hb]
      · subst heq
        have hb : Nat.blt a.toNat a.toNat = false := by
          rw [Bool.eq_false_iff, Ne, Nat.blt_eq]; exact lt_irrefl _
        constructor
        · intro h
          have h' : strLtB as bs = true := by simpa [strLtB, hb] using h
          exact List.Lex.cons ((ih bs).mp h')
        · intro h
          have h' : List.Lex (fun x1 x2 => x1 < x2) as bs := by
            cases h with
            | cons h => exact h
            | rel h => exact absurd h (lt_irrefl a)
          simpa [strLtB, hb] using (ih bs).mpr h'
      · have hb : Nat.blt a.toNat b.toNat = false := by
          rw [Bool.eq_false_iff, Ne, Nat.blt_eq]
          exact fun h => absurd h (asymm hgt)
        have hb' : Nat.blt b.toNat a.toNat = true := by
          rw [Nat.blt_eq]; exact hgt
        constructor
        · intro h; exact absurd h (by simp [strLtB, hb, hb'])
        · intro h
          cases h with
          | cons h => exact absurd hgt (lt_irrefl a)
          | rel h => exact absurd h (asymm hgt)

/-- The explicit comparison decides the String order. -/
theorem strLtB_lt_iff (s t : String) : strLtB s.data t.data = true ↔ s < t := by
  rw [String.lt_iff_toList_lt]
  exact strLtB_iff_lex s.data t.data

/-- Ordering relation the serializer sorts by. -/
def subResLe (a b : SubResource) : Prop := a.resource_name ≤ b.resource_name

/-- Inserting permutes: the stable insertion only changes positions. -/
theorem perm_stableInsert (a : SubResource) (l : List SubResource) :
    (stableInsert a l).Perm (a :: l) := by
  induction l with
  | nil => exact List.Perm.refl _
  | cons b bs ih =>
    unfold stableInsert
    by_cases h : strLtB b.resource_name.data a.resource_name.data = true
    · rw [if_pos h]
      exact (ih.cons b).trans (List.Perm.swap a b bs)
    · rw [if_neg h]

/-- The sort permutes its input. -/
theorem perm_sortByName (subs : List SubResource) : (sortByName subs).Perm subs := by
  induction subs with
  | nil => exact List.Perm.refl _
  | cons a as ih =>
    exact (perm_stableInsert a (sortByName as)).trans (ih.cons a)

/-- Stable insertion preserves sortedness. -/
theorem sorted_stableInsert (a : SubResource) (l : List SubResource)
    (h : List.Pairwise subResLe l) : List.Pairwise subResLe (stableInsert a l) := by
  induction l with
  | nil => exact List.pairwise_singleton _ _
  | cons b bs ih =>
    unfold stableInsert
    by_cases hc : strLtB b.resource_name.data a.resource_name.data = true
    · rw [if_pos hc]
      have hba : b.resource_name < a.resource_name := (strLtB_lt_iff _ _).mp hc
      refine List.Pairwise.cons ?_ (ih (List.pairwise_cons.mp h).2)
      intro y hy
      rcases List.mem_cons.mp ((perm_stableInsert a bs).mem_iff.mp hy) with rfl | hyb
      · exact le_of_lt hba
      · exact (List.pairwise_cons.mp h).1 y hyb
    · rw [if_neg hc]
      have hab : a.resource_name ≤ b.resource_name := by
        have hnot : ¬ b.resource_name < a.resource_name := fun hh =>
          hc ((strLtB_lt_iff _ _).mpr hh)
        exact not_lt.mp hnot
      refine List.Pairwise.cons ?_ h
      intro y hy
      rcases List.mem_cons.mp hy with rfl | hyb
      · exact hab
      · exact le_trans hab ((List.pairwise_cons.mp h).1 y hyb)

/-- The serializer's sort produces a list sorted by resource_name. -/
theorem sorted_sortByName (subs : List SubResource) :
    List.Pairwise subResLe (sortByName subs) := by
  induction subs with
  | nil => exact List.Pairwise.nil
  | cons a as ih => exact sorted_stableInsert a (sortByName as) ih

/-- The display names come out of the sort in non-decreasing order. -/
theorem sorted_names (subs : List SubResource) :
    List.Sorted (fun a b : String => a ≤ b)
      ((sortByName subs).map SubResource.resource_name) := by
  exact (List.pairwise_map).mpr (sorted_sortByName subs)

/-- Mapping the successor of the position over an enumeration yields the
contiguous range starting one above the start index. -/
theorem enumerateFrom_map_fst_succ {α : Type} (l : List α) : ∀ k : Nat,
    (enumerateFrom k l).map (fun p => p.1 + 1) = List.range' (k + 1) l.length := by
  induction l with
  | nil => intro k; rfl
  | cons a as ih =>
    intro k
    show (k + 1) :: (enumerateFrom (k + 1) as).map (fun p => p.1 + 1) =
      List.range' (k + 1) (as.length + 1)
    rw [List.range'_succ, ih (k + 1)]

/-- Enumeration only pairs the elements of the list with indices. -/
theorem mem_of_mem_enumerateFrom {α : Type} {x : Nat × α} {l : List α} : ∀ {k : Nat},
    x ∈ enumerateFrom k l → x.2 ∈ l := by
  induction l with
  | nil => intro k h; exact absurd h (by simp [enumerateFrom])
  | cons a as ih =>
    intro k h
    rcases List.mem_cons.mp h with rfl | h'
    · exact List.mem_cons_self a as
    · exact List.mem_cons_of_mem a (ih h')

/-- Every list element appears in the enumeration with some index. -/
theorem exists_mem_enumerateFrom {α : Type} {a : α} {l : List α} (h : a ∈ l) : ∀ k : Nat,
    ∃ i : Nat, (i, a) ∈ enumerateFrom k l := by
  induction l with
  | nil => exact absurd h (List.not_mem_nil a)
  | cons b bs ih =>
    intro k
    rcases List.mem_cons.mp h with rfl | h'
    · exact ⟨k, List.mem_cons_self _ _⟩
    · obtain ⟨i, hi⟩ := ih h' (k + 1)
      exact ⟨i, List.mem_cons_of_mem _ hi⟩

/-- The ids the serializer assigns to sub-resources are exactly 1..n. -/
theorem assignIds_map_fst (subs : List SubResource) :
    (assignIds subs).map Prod.fst = List.range' 1 subs.length := by
  unfold assignIds
  rw [List.map_map]
  have : (Prod.fst ∘ fun p : Nat × SubResource => (p.1 + 1, p.2)) =
      (fun p : Nat × SubResource => p.1 + 1) := rfl
  rw [this, enumerateFrom_map_fst_succ, (perm_sortByName subs).length_eq]

/-- The binding pass of fix_spine_sub_resources records exactly the pairs the
serializer later prints, because the isinstance filter accepts everything. -/
theorem subAnimation_true (sr : SubResource) : sr.isSubResourceAnimation = true := by
  cases sr <;> rfl

theorem bindAnimations_eq_assignIds (subs : List SubResource) :
    bindAnimations subs = assignIds subs := by
  unfold bindAnimations assignIds
  have hf : (fun p : Nat × SubResource =>
      if p.2.isSubResourceAnimation = true then some (p.1 + 1, p.2) else none) =
      fun p : Nat × SubResource => some (p.1 + 1, p.2) := by
    funext p
    rw [subAnimation_true, if_pos rfl]
  rw [hf]
  exact List.filterMap_eq_map _ ▸ rfl

/-- Unfolding: the fold over no files returns the node unchanged. -/
theorem addSpineFold_nil (m : MainNode) : addSpineFold [] m = .ok m := rfl

/-- Unfolding: the fold steps through the first file first. -/
theorem addSpineFold_cons (p : Nat × (String × SpineJson))
    (ps : List (Nat × (String × SpineJson))) (m : MainNode) :
    addSpineFold (p :: ps) m =
      match m.add_spine_child p.2.1 p.2.2 p.1 with
      | .error e => .error e
      | .ok m1 => addSpineFold ps m1 := by
  cases h : m.add_spine_child p.2.1 p.2.2 p.1 <;>
    simp [addSpineFold, List.foldlM_cons, h, Bind.bind, Except.bind]

/-- Successful file attachment: both keys present, and the node is extended by
one external resource, one SpineNode child and the file's sub-resources. -/
theorem add_spine_child_ok {m : MainNode} {jf : String} {c : SpineJson} {i : Nat}
    {an sk : List String} (han : c.animations = some an) (hsk : c.skins = some sk) :
    m.add_spine_child jf c i = .ok { m with
      ext_resources := m.ext_resources ++ [⟨jf, "SpineResource"⟩],
      children := m.children ++
        [ChildNode.spine (nodeNameOf jf) i (m.ext_resources.length + 1)],
      sub_resources := m.sub_resources ++
        (an.map (fun a => SubResource.play a (nodeNameOf jf)) ++
         sk.map (fun s => SubResource.skin s (nodeNameOf jf) [nodeNameOf jf])) } := by
  unfold MainNode.add_spine_child MainNode.add_ext_resource
  simp [han, hsk, List.length_append, List.append_assoc]

/-- Failed file attachment: a missing key aborts with the file's path. -/
theorem add_spine_child_err {m : MainNode} {jf : String} {c : SpineJson} {i : Nat}
    (h : c.animations = none ∨ c.skins = none) :
    m.add_spine_child jf c i = .error (.malformedInput jf) := by
  unfold MainNode.add_spine_child MainNode.add_ext_resource
  rcases h with h | h
  · simp [h]
  · cases han : c.animations with
    | none => simp
    | some an => simp [h]

/-- Elimination form of a successful file attachment. -/
theorem add_spine_child_ok_elim {m m' : MainNode} {jf : String} {c : SpineJson} {i : Nat}
    (h : m.add_spine_child jf c i = .ok m') :
    ∃ an sk, c.animations = some an ∧ c.skins = some sk ∧
      m' = { m with
        ext_resources := m.ext_resources ++ [⟨jf, "SpineResource"⟩],
        children := m.children ++
          [ChildNode.spine (nodeNameOf jf) i (m.ext_resources.length + 1)],
        sub_resources := m.sub_resources ++
          (an.map (fun a => SubResource.play a (nodeNameOf jf)) ++
           sk.map (fun s => SubResource.skin s (nodeNameOf jf) [nodeNameOf jf])) } := by
  cases han : c.animations with
  | none => rw [add_spine_child_err (Or.inl han)] at h; exact absurd h (by simp)
  | some an =>
    cases hsk : c.skins with
    | none => rw [add_spine_child_err (Or.inr hsk)] at h; exact absurd h (by simp)
    | some sk =>
      rw [add_spine_child_ok han hsk] at h
      exact ⟨an, sk, rfl, rfl, (Except.ok.inj h).symm⟩

/-- Whatever files the fold attaches, it only appends SpineResource external
resources, preserves the administrative fields, and keeps the invariant that
every skin sub-resource carries exactly its own default track. -/
theorem addSpineFold_ok_elim : ∀ {l : List (Nat × (String × SpineJson))} {m m' : MainNode},
    addSpineFold l m = .ok m' →
    (m'.parent = m.parent ∧ m'.script = m.script ∧ m'.animation_player = m.animation_player ∧
     m'.name = m.name ∧ m'.node_type = m.node_type ∧ m'.load_steps = m.load_steps) ∧
    (∃ ex, m'.ext_resources = m.ext_resources ++ ex ∧
      ∀ r ∈ ex, r.resource_type = "SpineResource") ∧
    ((∀ b nn tr, SubResource.skin b nn tr ∈ m.sub_resources → tr = [nn]) →
      (∀ b nn tr, SubResource.skin b nn tr ∈ m'.sub_resources → tr = [nn])) := by
  intro l
  induction l with
  | nil =>
    intro m m' h
    rw [addSpineFold_nil] at h
    cases Except.ok.inj h
    exact ⟨⟨rfl, rfl, rfl, rfl, rfl, rfl⟩, ⟨[], by simp, by simp⟩, fun hinv => hinv⟩
  | cons p ps ih =>
    intro m m' h
    rw [addSpineFold_cons] at h
    cases hstep : m.add_spine_child p.2.1 p.2.2 p.1 with
    | error e => rw [hstep] at h; exact absurd h (by simp)
    | ok m1 =>
      rw [hstep] at h
      obtain ⟨an, sk, _, _, hm1⟩ := add_spine_child_ok_elim hstep
      obtain ⟨hfields, ⟨ex, hext, hex⟩, hinv⟩ := ih h
      subst hm1
      refine ⟨⟨hfields.1, hfields.2.1, hfields.2.2.1, hfields.2.2.2.1,
        hfields.2.2.2.2.1, hfields.2.2.2.2.2⟩, ?_, ?_⟩
      · refine ⟨⟨p.2.1, "SpineResource"⟩ :: ex, ?_, ?_⟩
        · rw [hext]; simp
        · intro r hr
          rcases List.mem_cons.mp hr with rfl | hr'
          · rfl
          · exact hex r hr'
      · intro hpre
        refine hinv ?_
        intro b nn tr htr
        rcases List.mem_append.mp htr with hold | hnew
        · exact hpre b nn tr hold
        · rcases List.mem_append.mp hnew with hp | hs
          · rcases List.mem_map.mp hp with ⟨a, _, ha⟩
            exact absurd ha (by simp)
          · rcases List.mem_map.mp hs with ⟨a, _, ha⟩
            cases ha
            rfl

/-- With all keys present the fold succeeds and the child and resource counts
grow by exactly the number of files. -/
theorem addSpineFold_ok_of_valid : ∀ {l : List (Nat × (String × SpineJson))} (m : MainNode),
    (∀ x ∈ l, x.2.2.animations.isSome ∧ x.2.2.skins.isSome) →
    ∃ m', addSpineFold l m = .ok m' ∧
      countSpine m'.children = countSpine m.children + l.length ∧
      countPlayers m'.children = countPlayers m.children ∧
      m'.ext_resources.length = m.ext_resources.length + l.length := by
  intro l
  induction l with
  | nil =>
    intro m _
    exact ⟨m, addSpineFold_nil m, by simp, rfl, by simp⟩
  | cons p ps ih =>
    intro m hv
    obtain ⟨an, han⟩ := Option.isSome_iff_exists.mp (hv p (List.mem_cons_self _ _)).1
    obtain ⟨sk, hsk⟩ := Option.isSome_iff_exists.mp (hv p (List.mem_cons_self _ _)).2
    obtain ⟨m', hfold, hcs, hcp, hce⟩ :=
      ih _ (fun x hx => hv x (List.mem_cons_of_mem _ hx))
    refine ⟨m', ?_, ?_, ?_, ?_⟩
    · rw [addSpineFold_cons, add_spine_child_ok han hsk]
      exact hfold
    · rw [hcs]
      simp [countSpine, List.countP_append, List.countP_cons, ChildNode.isSpine]
      omega
    · rw [hcp]
      simp [countPlayers, List.countP_append, List.countP_cons, ChildNode.isPlayer]
    · rw [hce]
      simp [List.length_append]
      omega

/-- A file with a missing key makes the whole fold fail with the path of some
offending file. -/
theorem addSpineFold_err : ∀ {l : List (Nat × (String × SpineJson))} (m : MainNode),
    (∃ x ∈ l, x.2.2.animations = none ∨ x.2.2.skins = none) →
    ∃ p, addSpineFold l m = .error (.malformedInput p) := by
  intro l
  induction l with
  | nil =>
    intro m h
    obtain ⟨x, hx, _⟩ := h
    exact absurd hx (List.not_mem_nil x)
  | cons p ps ih =>
    intro m h
    by_cases hbad : p.2.2.animations = none ∨ p.2.2.skins = none
    · refine ⟨p.2.1, ?_⟩
      rw [addSpineFold_cons, add_spine_child_err hbad]
    · obtain ⟨x, hx, hxbad⟩ := h
      rcases List.mem_cons.mp hx with rfl | hx'
      · exact absurd hxbad hbad
      · push_neg at hbad
        obtain ⟨an, han⟩ := Option.ne_none_iff_exists'.mp hbad.1
        obtain ⟨sk, hsk⟩ := Option.ne_none_iff_exists'.mp hbad.2
        obtain ⟨q, hq⟩ := ih _ ⟨x, hx', hxbad⟩
        refine ⟨q, ?_⟩
        rw [addSpineFold_cons, add_spine_child_ok han hsk]
        exact hq

/-- The extra child never changes anything except appending one ExtraNode. -/
theorem attachExtra_fields (m : MainNode) (e : Option String) :
    (attachExtra m e).parent = m.parent ∧ (attachExtra m e).script = m.script ∧
    (attachExtra m e).ext_resources = m.ext_resources ∧
    (attachExtra m e).sub_resources = m.sub_resources ∧
    countSpine (attachExtra m e).children = countSpine m.children ∧
    countPlayers (attachExtra m e).children = countPlayers m.children := by
  cases e with
  | none => exact ⟨rfl, rfl, rfl, rfl, rfl, rfl⟩
  | some d =>
    refine ⟨rfl, rfl, rfl, rfl, ?_, ?_⟩ <;>
      simp [attachExtra, MainNode.add_extra_file, countSpine, countPlayers,
        List.countP_append, List.countP_cons, ChildNode.isSpine, ChildNode.isPlayer]

/-- Attaching the player on a parentless node always succeeds and appends the
player at the end, remembering its position. -/
theorem add_animation_player_ok (m : MainNode) (hp : m.parent = none) :
    m.add_animation_player = .ok { m with
      children := m.children ++ [ChildNode.player "animation" m.children.length []],
      animation_player := some m.children.length } := by
  unfold MainNode.add_animation_player
  rw [hp]

/-- Attaching the player on a node with a parent fails the assertion. -/
theorem add_animation_player_err (m : MainNode) {q : String} (hp : m.parent = some q) :
    m.add_animation_player = .error .assertionFailed := by
  unfold MainNode.add_animation_player
  rw [hp]

/-- The synchronizer succeeds whenever a player has been attached. -/
theorem fix_ok (pick : List String → List String) (m : MainNode) {idx : Nat}
    (hA : m.animation_player = some idx) :
    m.fix_spine_sub_resources pick = .ok (fixPure pick m idx) := by
  unfold MainNode.fix_spine_sub_resources
  rw [hA]

/-- Unfolding of build_tree past a successful file fold. -/
theorem build_tree_stage {pick : List String → List String}
    {files : List (String × SpineJson)} {n t : String} {e s : Option String} {m1 : MainNode}
    (hf : addSpineFold (enumerateFrom 0 files) (mkMainNode n t s) = .ok m1) :
    build_tree pick files n t e s =
      match (attachExtra m1 e).add_animation_player with
      | .error err => .error err
      | .ok m3 =>
        match m3.fix_spine_sub_resources pick with
        | .error err => .error err
        | .ok m4 => .ok m4.set_load_steps := by
  unfold build_tree
  rw [hf]

/-- A successful build decomposes into its pipeline stages: the file fold, the
optional extra child, the player appended at the end of the child list, the
synchronizer run on that exact state, and the final load-step computation. -/
theorem build_tree_ok_elim {pick : List String → List String}
    {files : List (String × SpineJson)} {n t : String} {e s : Option String} {m : MainNode}
    (h : build_tree pick files n t e s = .ok m) :
    ∃ m1, addSpineFold (enumerateFrom 0 files) (mkMainNode n t s) = .ok m1 ∧
      (attachExtra m1 e).parent = none ∧
      m = (fixPure pick
            { attachExtra m1 e with
              children := (attachExtra m1 e).children ++
                [ChildNode.player "animation" (attachExtra m1 e).children.length []],
              animation_player := some (attachExtra m1 e).children.length }
            (attachExtra m1 e).children.length).set_load_steps := by
  cases hf : addSpineFold (enumerateFrom 0 files) (mkMainNode n t s) with
  | error err =>
    unfold build_tree at h
    rw [hf] at h
    exact absurd h (by simp)
  | ok m1 =>
    rw [build_tree_stage hf] at h
    cases hp : (attachExtra m1 e).parent with
    | some q =>
      rw [add_animation_player_err _ hp] at h
      exact absurd h (by simp)
    | none =>
      rw [add_animation_player_ok _ hp] at h
      have h' : (match
          MainNode.fix_spine_sub_resources pick
            { attachExtra m1 e with
              children := (attachExtra m1 e).children ++
                [ChildNode.player "animation" (attachExtra m1 e).children.length []],
              animation_player := some (attachExtra m1 e).children.length } with
        | .error err => (Except.error err : Except BuildError MainNode)
        | .ok m4 => .ok m4.set_load_steps) = .ok m := h
      rw [fix_ok pick _ rfl] at h'
      exact ⟨m1, rfl, hp, (Except.ok.inj h').symm⟩

/-- Adding tracks never changes which node a skin belongs to. -/
theorem skinNodeNames_map_addSkinTracks (ns : List String) (subs : List SubResource) :
    skinNodeNames (subs.map (addSkinTracks ns)) = skinNodeNames subs := by
  induction subs with
  | nil => rfl
  | cons sr rest ih =>
    cases sr <;> simp [skinNodeNames, addSkinTracks, List.filterMap_cons] <;>
      simpa [skinNodeNames] using ih

/-- Adding tracks never changes the display name. -/
theorem resource_name_addSkinTracks (ns : List String) (sr : SubResource) :
    (addSkinTracks ns sr).resource_name = sr.resource_name := by
  cases sr <;> rfl

/-- A skin sub-resource contributes its node name to the skin node list. -/
theorem mem_skinNodeNames {b nn : String} {tr : List String} {subs : List SubResource}
    (h : SubResource.skin b nn tr ∈ subs) : nn ∈ skinNodeNames subs := by
  unfold skinNodeNames
  exact List.mem_filterMap.mpr ⟨SubResource.skin b nn tr, h, rfl⟩

/-- Membership in the synchronized list comes from a skin with the same name
whose track list was extended by the enumerated other nodes. -/
theorem mem_map_addSkinTracks_elim {ns : List String} {subs : List SubResource}
    {b nn : String} {tr : List String}
    (h : SubResource.skin b nn tr ∈ subs.map (addSkinTracks ns)) :
    ∃ tr0, SubResource.skin b nn tr0 ∈ subs ∧
      tr = tr0 ++ ns.filter (fun node_name => node_name != nn) := by
  rcases List.mem_map.mp h with ⟨sr, hsr, hf⟩
  cases sr with
  | play b0 n0 => exact absurd hf (by simp [addSkinTracks])
  | skin b0 n0 tr0 =>
    unfold addSkinTracks at hf
    obtain ⟨hb, hn, ht⟩ := SubResource.skin.inj hf
    subst hb; subst hn; subst ht
    exact ⟨tr0, hsr, rfl⟩

/-- Two duplicate-free lists with the same membership are permutations. -/
theorem perm_of_nodup_ext {l₁ l₂ : List String} (h₁ : l₁.Nodup) (h₂ : l₂.Nodup)
    (h : ∀ x, x ∈ l₁ ↔ x ∈ l₂) : l₁.Perm l₂ :=
  List.perm_of_nodup_nodup_toFinset_eq h₁ h₂
    (Finset.ext fun a => by rw [List.mem_toFinset, List.mem_toFinset]; exact h a)

/-- Putting the own node in front of the filtered enumeration is a permutation
of the whole enumeration, when the own node is enumerated. -/
theorem cons_filter_perm {ns : List String} {nn : String} (hnd : ns.Nodup) (hm : nn ∈ ns) :
    (nn :: ns.filter (fun x => x != nn)).Perm ns := by
  rw [← List.Nodup.erase_eq_filter hnd nn]
  exact (List.perm_cons_erase hm).symm

/-- Deduplication is an admissible set enumeration. -/
theorem setPick_pickDedup : SetPick pickDedup :=
  fun l => ⟨List.nodup_dedup l, fun _ => List.mem_dedup⟩

/-- Reversed deduplication is an admissible set enumeration. -/
theorem setPick_pickRevDedup : SetPick pickRevDedup := by
  intro l
  constructor
  · exact (List.nodup_reverse).mpr (List.nodup_dedup l)
  · intro x
    simp [pickRevDedup, List.mem_reverse, List.mem_dedup]

/-- The bound animation list of the player after a successful build: the most
recently attached player carries exactly the pairs of the binding pass over
the final sub-resource list. -/
theorem playerAnims_build {pick : List String → List String}
    {files : List (String × SpineJson)} {n t : String} {e s : Option String} {m : MainNode}
    (h : build_tree pick files n t e s = .ok m) :
    playerAnims m = some (bindAnimations m.sub_resources) := by
  obtain ⟨m1, _, _, hm⟩ := build_tree_ok_elim h
  subst hm
  unfold playerAnims fixPure MainNode.set_load_steps setPlayerAnims
  simp only [List.getElem?_concat_length]
  rw [List.getElem?_set]
  simp [List.length_append]

/-- Claim C1 (amended): in every successful build the serializer assigns the
sub-resource ids 1..n contiguously in sorted order of derived display name,
the display-name sequence is non-decreasing (animations and skin-changes in
one global sort), and it is strictly ascending whenever the display names are
pairwise distinct. -/
theorem claim_c1_amended (pick : List String → List String)
    (files : List (String × SpineJson)) (n t : String) (e s : Option String) (m : MainNode)
    (_h : build_tree pick files n t e s = .ok m) :
    (assignIds m.sub_resources).map Prod.fst = List.range' 1 m.sub_resources.length ∧
    List.Sorted (fun a b : String => a ≤ b)
      ((sortByName m.sub_resources).map SubResource.resource_name) ∧
    ((m.sub_resources.map SubResource.resource_name).Nodup →
      List.Sorted (fun a b : String => a < b)
        ((sortByName m.sub_resources).map SubResource.resource_name)) := by
  refine ⟨assignIds_map_fst _, sorted_names _, ?_⟩
  intro hnd
  have hperm : ((sortByName m.sub_resources).map SubResource.resource_name).Perm
      (m.sub_resources.map SubResource.resource_name) :=
    (perm_sortByName _).map _
  exact List.Sorted.lt_of_le (sorted_names _) (hperm.symm.nodup hnd)

/-- Input with two files sharing a basename, hence one derived display name. -/
def c1files : List (String × SpineJson) :=
  [("a.json", ⟨some [], some ["s"]⟩), ("d/a.json", ⟨some [], some ["s"]⟩)]

/-- Claim C1 (counterexample): two valid input files with the same basename
produce two sub-resources with the same derived display name, so the
serialized display-name sequence is not strictly ascending. -/
theorem claim_c1_counterexample :
    (build_tree pickDedup c1files "p" "T" none none).map
        (fun m => (sortByName m.sub_resources).map SubResource.resource_name) =
      .ok ["spine_a__skin__s", "spine_a__skin__s"] ∧
    ¬ List.Chain' (fun a b : String => a < b)
      ["spine_a__skin__s", "spine_a__skin__s"] := by
  constructor
  · rfl
  · intro hch
    exact absurd (List.chain'_cons.mp hch).1 (lt_irrefl _)

/-- Concrete document for the C1 witness. -/
def w1m : MainNode :=
  (build_tree pickDedup [("a.json", ⟨some ["walk", "idle"], some ["blue", "default"]⟩)]
    "player" "KinematicBody2D" none none).toOption.getD default

/-- Claim C1 (witness): on a concrete build with distinct display names the
ids are 1..4 and the name order is strictly ascending. -/
theorem claim_c1_witness :
    (assignIds w1m.sub_resources).map Prod.fst = List.range' 1 4 ∧
    List.Sorted (fun a b : String => a < b)
      ((sortByName w1m.sub_resources).map SubResource.resource_name) := by
  have h := claim_c1_amended pickDedup
    [("a.json", ⟨some ["walk", "idle"], some ["blue", "default"]⟩)]
    "player" "KinematicBody2D" none none w1m (by rfl)
  exact ⟨h.1, h.2.2 (by decide)⟩

/-- Claim C2: in every completed build the load_steps header value equals the
number of external resources plus the number of sub-resources plus one, the
counts being taken on the finalized resource lists. -/
theorem claim_c2_load_steps (pick : List String → List String)
    (files : List (String × SpineJson)) (n t : String) (e s : Option String) (m : MainNode)
    (h : build_tree pick files n t e s = .ok m) :
    m.load_steps = some (m.ext_resources.length + m.sub_resources.length + 1) := by
  obtain ⟨m1, _, _, hm⟩ := build_tree_ok_elim h
  subst hm
  rfl

/-- Concrete document for the C2 witness. -/
def w2m : MainNode :=
  (build_tree pickDedup [("a.json", ⟨some ["idle"], some ["blue"]⟩)]
    "player" "KinematicBody2D" none none).toOption.getD default

/-- Claim C2 (witness): the load-steps equation evaluated on a concrete
build. -/
theorem claim_c2_witness :
    w2m.load_steps = some (w2m.ext_resources.length + w2m.sub_resources.length + 1) :=
  claim_c2_load_steps pickDedup [("a.json", ⟨some ["idle"], some ["blue"]⟩)]
    "player" "KinematicBody2D" none none w2m (by rfl)

/-- Enumeration preserves length. -/
theorem length_enumerateFrom {α : Type} (l : List α) : ∀ k : Nat,
    (enumerateFrom k l).length = l.length := by
  induction l with
  | nil => intro k; rfl
  | cons a as ih =>
    intro k
    show (enumerateFrom (k + 1) as).length + 1 = as.length + 1
    rw [ih]

/-- The constructed root has no parent, whatever the script option is. -/
theorem mkMainNode_parent (n t : String) (s : Option String) :
    (mkMainNode n t s).parent = none := by
  cases s <;> rfl

/-- The constructed root stores the script option unchanged. -/
theorem mkMainNode_script (n t : String) (s : Option String) :
    (mkMainNode n t s).script = s := by
  cases s <;> rfl

/-- Replacing a list entry by one that the predicate treats the same keeps the
count. -/
theorem countP_set_of_eq (p : ChildNode → Bool) : ∀ (l : List ChildNode) (i : Nat)
    {x y : ChildNode}, l[i]? = some x → p y = p x → (l.set i y).countP p = l.countP p := by
  intro l
  induction l with
  | nil =>
    intro i x y h
    exact absurd h (by simp)
  | cons a as ih =>
    intro i x y h hpy
    cases i with
    | zero =>
      rw [List.getElem?_cons_zero] at h
      cases Option.some.inj h
      simp [List.set, List.countP_cons, hpy]
    | succ j =>
      rw [List.getElem?_cons_succ] at h
      simp [List.set, List.countP_cons, ih j h hpy]

/-- Binding the animations to the player changes no SpineNode count. -/
theorem countSpine_setPlayerAnims (children : List ChildNode) (idx : Nat)
    (anims : List (Nat × SubResource)) :
    countSpine (setPlayerAnims children idx anims) = countSpine children := by
  unfold setPlayerAnims
  cases hc : children[idx]? with
  | none => rfl
  | some c =>
    cases c with
    | spine _ _ _ => rfl
    | extra _ => rfl
    | player nm i old => exact countP_set_of_eq _ children idx hc rfl

/-- Binding the animations to the player changes no player count. -/
theorem countPlayers_setPlayerAnims (children : List ChildNode) (idx : Nat)
    (anims : List (Nat × SubResource)) :
    countPlayers (setPlayerAnims children idx anims) = countPlayers children := by
  unfold setPlayerAnims
  cases hc : children[idx]? with
  | none => rfl
  | some c =>
    cases c with
    | spine _ _ _ => rfl
    | extra _ => rfl
    | player nm i old => exact countP_set_of_eq _ children idx hc rfl

/-- A failing file fold makes the whole build fail with the same error. -/
theorem build_tree_err_of_fold {pick : List String → List String}
    {files : List (String × SpineJson)} {n t : String} {e s : Option String}
    {err : BuildError}
    (hf : addSpineFold (enumerateFrom 0 files) (mkMainNode n t s) = .error err) :
    build_tree pick files n t e s = .error err := by
  unfold build_tree
  rw [hf]

/-- A successful fold and a parentless state after the extra child determine
the whole build result. -/
theorem build_tree_ok_full {pick : List String → List String}
    {files : List (String × SpineJson)} {n t : String} {e s : Option String} {m1 : MainNode}
    (hf : addSpineFold (enumerateFrom 0 files) (mkMainNode n t s) = .ok m1)
    (hp : (attachExtra m1 e).parent = none) :
    build_tree pick files n t e s = .ok
      ((fixPure pick
        { attachExtra m1 e with
          children := (attachExtra m1 e).children ++
            [ChildNode.player "animation" (attachExtra m1 e).children.length []],
          animation_player := some (attachExtra m1 e).children.length }
        (attachExtra m1 e).children.length).set_load_steps) := by
  rw [build_tree_stage hf, add_animation_player_ok _ hp]
  show (match
      MainNode.fix_spine_sub_resources pick
        { attachExtra m1 e with
          children := (attachExtra m1 e).children ++
            [ChildNode.player "animation" (attachExtra m1 e).children.length []],
          animation_player := some (attachExtra m1 e).children.length } with
    | .error err => (Except.error err : Except BuildError MainNode)
    | .ok m4 => .ok m4.set_load_steps) = _
  rw [fix_ok pick _ rfl]

/-- Claim C4 (amended): a build over N valid animation-library files yields
exactly N source-node blocks, and exactly N external-resource blocks when no
script is attached, N + 1 when a script is attached. -/
theorem claim_c4_amended (pick : List String → List String)
    (files : List (String × SpineJson)) (n t : String) (e s : Option String)
    (hv : ∀ f ∈ files, f.2.animations.isSome ∧ f.2.skins.isSome) :
    (build_tree pick files n t e s).map
        (fun m => (countSpine m.children, m.ext_resources.length)) =
      .ok (files.length, files.length + (if s.isSome then 1 else 0)) := by
  obtain ⟨m1, hf, hcs, hcp, hce⟩ :=
    @addSpineFold_ok_of_valid (enumerateFrom 0 files) (mkMainNode n t s)
      (fun x hx => hv x.2 (mem_of_mem_enumerateFrom hx))
  have hm1parent : m1.parent = none := by
    rw [(addSpineFold_ok_elim hf).1.1, mkMainNode_parent]
  have hp : (attachExtra m1 e).parent = none := by
    rw [(attachExtra_fields m1 e).1, hm1parent]
  rw [build_tree_ok_full hf hp]
  simp only [Except.map, Except.ok.injEq, Prod.mk.injEq]
  constructor
  · calc countSpine ((fixPure pick
        { attachExtra m1 e with
          children := (attachExtra m1 e).children ++
            [ChildNode.player "animation" (attachExtra m1 e).children.length []],
          animation_player := some (attachExtra m1 e).children.length }
        (attachExtra m1 e).children.length).set_load_steps).children
        = countSpine ((attachExtra m1 e).children ++
            [ChildNode.player "animation" (attachExtra m1 e).children.length []]) :=
          countSpine_setPlayerAnims _ _ _
      _ = countSpine (attachExtra m1 e).children := by
          simp [countSpine, List.countP_append, List.countP_cons, ChildNode.isSpine]
      _ = countSpine m1.children := (attachExtra_fields m1 e).2.2.2.2.1
      _ = countSpine (mkMainNode n t s).children + (enumerateFrom 0 files).length := hcs
      _ = files.length := by
          rw [length_enumerateFrom]
          cases s <;>
            simp [mkMainNode, MainNode.add_ext_resource, countSpine]
  · calc ((fixPure pick
        { attachExtra m1 e with
          children := (attachExtra m1 e).children ++
            [ChildNode.player "animation" (attachExtra m1 e).children.length []],
          animation_player := some (attachExtra m1 e).children.length }
        (attachExtra m1 e).children.length).set_load_steps).ext_resources.length
        = (attachExtra m1 e).ext_resources.length := rfl
      _ = m1.ext_resources.length := by rw [(attachExtra_fields m1 e).2.2.1]
      _ = (mkMainNode n t s).ext_resources.length + (enumerateFrom 0 files).length := hce
      _ = files.length + (if s.isSome then 1 else 0) := by
          rw [length_enumerateFrom]
          cases s with
          | none => simp [mkMainNode, MainNode.add_ext_resource]
          | some q =>
            simp [mkMainNode, MainNode.add_ext_resource]
            omega

/-- Claim C4 (counterexample): one valid file and no script yield one external
resource block, not two as the claim's N + 1 formula demands. -/
theorem claim_c4_counterexample :
    (build_tree pickDedup [("a.json", ⟨some ["idle"], some []⟩)] "p" "T" none none).map
        (fun m => m.ext_resources.length) = .ok 1 ∧ (1 : Nat) ≠ 1 + 1 := by
  exact ⟨rfl, by decide⟩

/-- Claim C4 (witness): two valid files with a script give two source-node
blocks and three external resources. -/
theorem claim_c4_witness :
    (build_tree pickDedup
        [("a.json", ⟨some ["idle"], some []⟩), ("b.json", ⟨some [], some ["d"]⟩)]
        "p" "T" none (some "scr.gd")).map
        (fun m => (countSpine m.children, m.ext_resources.length)) = .ok (2, 3) :=
  claim_c4_amended pickDedup
    [("a.json", ⟨some ["idle"], some []⟩), ("b.json", ⟨some [], some ["d"]⟩)]
    "p" "T" none (some "scr.gd") (by decide)

/-- Claim C5: when a script path is supplied it is the first external resource
and receives id 1 at serialization, and the root property block carries the
script line; without a script no script-typed resource and no script line
exist. -/
theorem claim_c5_script (pick : List String → List String)
    (files : List (String × SpineJson)) (n t : String) (e s : Option String) (m : MainNode)
    (h : build_tree pick files n t e s = .ok m) :
    (∀ sc, s = some sc →
      (assignExtIds m.ext_resources).head? = some (1, ⟨sc, "Script"⟩) ∧
      scriptLinePart m = "script = ExtResource( 1 )\n\n") ∧
    (s = none →
      scriptLinePart m = "" ∧ ∀ r ∈ m.ext_resources, r.resource_type = "SpineResource") := by
  obtain ⟨m1, hf, hp, hm⟩ := build_tree_ok_elim h
  obtain ⟨hfields, ⟨ex, hext, hexty⟩, _⟩ := addSpineFold_ok_elim hf
  have hscript : m.script = s := by
    rw [hm]
    show (attachExtra m1 e).script = s
    rw [(attachExtra_fields m1 e).2.1, hfields.2.1, mkMainNode_script]
  have hextm : m.ext_resources = (mkMainNode n t s).ext_resources ++ ex := by
    rw [hm]
    show (attachExtra m1 e).ext_resources = _
    rw [(attachExtra_fields m1 e).2.2.1, hext]
  constructor
  · intro sc hsc
    subst hsc
    constructor
    · rw [hextm]
      rfl
    · unfold scriptLinePart
      rw [hscript]
  · intro hsn
    subst hsn
    constructor
    · unfold scriptLinePart
      rw [hscript]
    · intro r hr
      have hxx : m.ext_resources = ex := by
        rw [hextm]
        simp [mkMainNode]
      rw [hxx] at hr
      exact hexty r hr

/-- Concrete input for the C5 witness. -/
def w5files : List (String × SpineJson) := [("a.json", ⟨some ["idle"], some []⟩)]

/-- Concrete build with a script for the C5 witness. -/
def w5m : MainNode :=
  (build_tree pickDedup w5files "p" "T" none (some "scr.gd")).toOption.getD default

/-- Concrete build without a script for the C5 witness. -/
def w5m2 : MainNode :=
  (build_tree pickDedup w5files "p" "T" none none).toOption.getD default

/-- Claim C5 (witness): both branches evaluated on concrete builds. -/
theorem claim_c5_witness :
    ((assignExtIds w5m.ext_resources).head? = some (1, ⟨"scr.gd", "Script"⟩) ∧
      scriptLinePart w5m = "script = ExtResource( 1 )\n\n") ∧
    (scriptLinePart w5m2 = "" ∧
      ∀ r ∈ w5m2.ext_resources, r.resource_type = "SpineResource") := by
  constructor
  · exact (claim_c5_script pickDedup w5files "p" "T" none (some "scr.gd") w5m
      (by rfl)).1 "scr.gd" rfl
  · exact (claim_c5_script pickDedup w5files "p" "T" none none w5m2 (by rfl)).2 rfl

/-- Claim C7: an input file whose parsed content lacks the animations key (or
the skins key) makes the build fail with MalformedInputError naming some
offending file, and the core produces no output string. -/
theorem claim_c7_malformed (pick : List String → List String)
    (files : List (String × SpineJson)) (n t : String) (e s : Option String)
    (hbad : ∃ f ∈ files, f.2.animations = none ∨ f.2.skins = none) :
    runCore pick files n t e s = none ∧
    ∃ p, build_tree pick files n t e s = .error (BuildError.malformedInput p) := by
  obtain ⟨f, hmem, hfbad⟩ := hbad
  obtain ⟨i, hi⟩ := exists_mem_enumerateFrom hmem 0
  obtain ⟨p, hperr⟩ := addSpineFold_err (mkMainNode n t s) ⟨(i, f), hi, hfbad⟩
  have hb : build_tree pick files n t e s = .error (.malformedInput p) :=
    build_tree_err_of_fold hperr
  refine ⟨?_, ⟨p, hb⟩⟩
  unfold runCore
  rw [hb]
  rfl

/-- Claim C7 (witness): a concrete file missing the animations key yields no
output. -/
theorem claim_c7_witness :
    runCore pickDedup [("bad.json", ⟨none, some []⟩)] "p" "T" none none = none :=
  (claim_c7_malformed pickDedup [("bad.json", ⟨none, some []⟩)] "p" "T" none none
    ⟨("bad.json", ⟨none, some []⟩), List.mem_singleton.mpr rfl, Or.inl rfl⟩).1

/-- Claim C8 (counterexample): calling add_animation_player twice on the same
root raises no error and ends with two player children. -/
theorem claim_c8_counterexample :
    ((mkMainNode "p" "T" none).add_animation_player >>=
        MainNode.add_animation_player).map (fun m => countPlayers m.children) = .ok 2 := by
  rfl

/-- Claim C8 (amended): the only precondition add_animation_player enforces is
being the parentless root; on a root a second call succeeds and appends a
second AnimationPlayerNode child, while on a node with a parent the assertion
fails. -/
theorem claim_c8_amended (m : MainNode) :
    (m.parent = none →
      ((m.add_animation_player >>= MainNode.add_animation_player).map
        (fun x => countPlayers x.children)) = .ok (countPlayers m.children + 2)) ∧
    (∀ q, m.parent = some q → m.add_animation_player = .error .assertionFailed) := by
  constructor
  · intro hp
    rw [add_animation_player_ok m hp]
    have hp2 : ({ m with
        children := m.children ++ [ChildNode.player "animation" m.children.length []],
        animation_player := some m.children.length } : MainNode).parent = none := hp
    simp only [Bind.bind, Except.bind]
    rw [add_animation_player_ok _ hp2]
    simp only [Except.map, Except.ok.injEq]
    simp [countPlayers, List.countP_append, List.countP_cons, ChildNode.isPlayer]
  · intro q hq
    exact add_animation_player_err m hq

/-- Claim C8 (witness): the amended behavior evaluated on a concrete root and
on a concrete child node. -/
theorem claim_c8_witness :
    ((mkMainNode "root" "Node2D" none).add_animation_player >>=
        MainNode.add_animation_player).map (fun x => countPlayers x.children) = .ok 2 ∧
    ({ mkMainNode "root" "Node2D" none with parent := some "." } : MainNode).add_animation_player
      = .error .assertionFailed := by
  constructor
  · exact (claim_c8_amended (mkMainNode "root" "Node2D" none)).1 rfl
  · exact (claim_c8_amended _).2 "." rfl

/-- Name formula exactly as claim C9 words it: spine_ prefix plus the file's
basename with dots replaced by underscores (no removal of the .json
substring). -/
def claimedSpineName (json_file : String) : String :=
  "spine_" ++ pyReplace (pyBasename json_file) "." "_"

/-- Claim C9 (counterexample): for foo.json the code derives spine_foo, while
the claim's formula gives spine_foo_json. -/
theorem claim_c9_counterexample :
    ((mkMainNode "p" "T" none).add_spine_child "foo.json" ⟨some [], some []⟩ 0).map
      (fun m => m.children) = .ok [ChildNode.spine "spine_foo" 0 1] ∧
    claimedSpineName "foo.json" = "spine_foo_json" ∧
    ("spine_foo" : String) ≠ "spine_foo_json" := by
  refine ⟨rfl, rfl, ?_⟩
  decide

/-- Claim C9 (amended): the source-node name generated by add_spine_child is
spine_ plus the basename with every occurrence of the substring .json removed
first and the remaining dots then replaced by underscores. -/
theorem claim_c9_amended (m : MainNode) (jf : String) (c : SpineJson) (i : Nat) (m' : MainNode)
    (h : m.add_spine_child jf c i = .ok m') :
    m'.children.getLast? = some (ChildNode.spine
      ("spine_" ++ pyReplace (pyReplace (pyBasename jf) ".json" "") "." "_")
      i (m.ext_resources.length + 1)) := by
  obtain ⟨an, sk, _, _, hm⟩ := add_spine_child_ok_elim h
  subst hm
  show (m.children ++
    [ChildNode.spine (nodeNameOf jf) i (m.ext_resources.length + 1)]).getLast? = _
  rw [List.getLast?_concat]
  rfl

/-- Concrete attachment for the C9 witness. -/
def w9m : MainNode :=
  ((mkMainNode "p" "T" none).add_spine_child "dir/anim.v2.json" ⟨some [], some []⟩
    0).toOption.getD default

/-- Claim C9 (witness): the amended formula evaluated on a dotted path. -/
theorem claim_c9_witness :
    w9m.children.getLast? = some (ChildNode.spine "spine_anim_v2" 0 1) :=
  claim_c9_amended (mkMainNode "p" "T" none) "dir/anim.v2.json" ⟨some [], some []⟩ 0 w9m
    (by rfl)

/-- Claim C10: after a successful build the (id, sub-resource) pairs recorded
in the animation player by the binding pass coincide with the id assignment
the serializer computes for the sub-resource blocks, position by position —
the two sorted passes run the same stable sort on the same final list, so the
pairing agrees even when display names repeat. -/
theorem claim_c10_binding (pick : List String → List String)
    (files : List (String × SpineJson)) (n t : String) (e s : Option String) (m : MainNode)
    (h : build_tree pick files n t e s = .ok m) :
    playerAnims m = some (assignIds m.sub_resources) := by
  rw [playerAnims_build h, bindAnimations_eq_assignIds]

/-- Concrete build with two files sharing a basename (duplicate display
names) for the C10 witness. -/
def w10m : MainNode :=
  (build_tree pickDedup [("a.json", ⟨some ["x"], some []⟩), ("d/a.json", ⟨some ["x"], some []⟩)]
    "p" "T" none none).toOption.getD default

/-- Claim C10 (witness): binding and serialization agree on a build with
duplicate display names. -/
theorem claim_c10_witness :
    playerAnims w10m = some (assignIds w10m.sub_resources) :=
  claim_c10_binding pickDedup
    [("a.json", ⟨some ["x"], some []⟩), ("d/a.json", ⟨some ["x"], some []⟩)]
    "p" "T" none none w10m (by rfl)

/-- Claim C3: after the skin-track synchronization, every SkinChangeAnimation
in a successful build carries exactly one track per distinct node name that
declares at least one skin: its track list is duplicate-free, its members are
exactly the skin-declaring node names, and its length is the number of
distinct such names. -/
theorem claim_c3_tracks (pick : List String → List String)
    (files : List (String × SpineJson)) (n t : String) (e s : Option String) (m : MainNode)
    (hpick : SetPick pick) (h : build_tree pick files n t e s = .ok m) :
    ∀ b nn tr, SubResource.skin b nn tr ∈ m.sub_resources →
      tr.length = ((skinNodeNames m.sub_resources).dedup).length ∧
      tr.Nodup ∧ (∀ x, x ∈ tr ↔ x ∈ skinNodeNames m.sub_resources) := by
  obtain ⟨m1, hf, hp, hm⟩ := build_tree_ok_elim h
  obtain ⟨_, _, hinv⟩ := addSpineFold_ok_elim hf
  have hskininv : ∀ b nn tr, SubResource.skin b nn tr ∈ m1.sub_resources → tr = [nn] := by
    refine hinv ?_
    intro b nn tr htr
    have hmk : (mkMainNode n t s).sub_resources = [] := by cases s <;> rfl
    rw [hmk] at htr
    exact absurd htr (List.not_mem_nil _)
  have hsubs_eq : (attachExtra m1 e).sub_resources = m1.sub_resources :=
    (attachExtra_fields m1 e).2.2.2.1
  have hmsubs : m.sub_resources =
      m1.sub_resources.map (addSkinTracks (pick (skinNodeNames m1.sub_resources))) := by
    rw [hm]
    show (attachExtra m1 e).sub_resources.map
      (addSkinTracks (pick (skinNodeNames (attachExtra m1 e).sub_resources))) = _
    rw [hsubs_eq]
  intro b nn tr htr
  rw [hmsubs] at htr
  obtain ⟨tr0, htr0mem, htreq⟩ := mem_map_addSkinTracks_elim htr
  have htr0 : tr0 = [nn] := hskininv b nn tr0 htr0mem
  have hnn_mem : nn ∈ skinNodeNames m1.sub_resources := mem_skinNodeNames htr0mem
  obtain ⟨hnsnd, hnsmem⟩ := hpick (skinNodeNames m1.sub_resources)
  have hnn_ns : nn ∈ pick (skinNodeNames m1.sub_resources) := (hnsmem nn).mpr hnn_mem
  have hperm : tr.Perm (pick (skinNodeNames m1.sub_resources)) := by
    rw [htreq, htr0]
    exact cons_filter_perm hnsnd hnn_ns
  have hnames : skinNodeNames m.sub_resources = skinNodeNames m1.sub_resources := by
    rw [hmsubs]
    exact skinNodeNames_map_addSkinTracks _ _
  refine ⟨?_, ?_, ?_⟩
  · rw [hperm.length_eq, hnames]
    exact (perm_of_nodup_ext hnsnd (List.nodup_dedup _)
      (fun x => by rw [hnsmem x, List.mem_dedup])).length_eq
  · exact hperm.symm.nodup hnsnd
  · intro x
    rw [hperm.mem_iff, hnsmem x, hnames]

/-- Concrete build with two skin-declaring nodes for the C3 witness. -/
def w3m : MainNode :=
  (build_tree pickDedup [("a", ⟨some [], some ["s"]⟩), ("b", ⟨some [], some ["s"]⟩)]
    "p" "T" none none).toOption.getD default

/-- Claim C3 (witness): the skin of the first node ends up with exactly the
two tracks, one per skin-declaring node. -/
theorem claim_c3_witness :
    SubResource.skin "s" "spine_a" ["spine_a", "spine_b"] ∈ w3m.sub_resources ∧
    (["spine_a", "spine_b"] : List String).length =
      ((skinNodeNames w3m.sub_resources).dedup).length ∧
    (["spine_a", "spine_b"] : List String).Nodup := by
  have hmem : SubResource.skin "s" "spine_a" ["spine_a", "spine_b"] ∈ w3m.sub_resources := by
    decide
  have h := claim_c3_tracks pickDedup
    [("a", ⟨some [], some ["s"]⟩), ("b", ⟨some [], some ["s"]⟩)] "p" "T" none none w3m
    setPick_pickDedup (by rfl) "s" "spine_a" ["spine_a", "spine_b"] hmem
  exact ⟨hmem, h.1, h.2.1⟩

/-- Pointwise relation between the sub-resources of two runs: equal except
that the track lists of skin-changes may be permuted. -/
def TrackPermRel : SubResource → SubResource → Prop
  | .play b1 n1, .play b2 n2 => b1 = b2 ∧ n1 = n2
  | .skin b1 n1 t1, .skin b2 n2 t2 => b1 = b2 ∧ n1 = n2 ∧ t1.Perm t2
  | _, _ => False

/-- Claim C6 (amended): the model makes the output a function of the input
files and the set-enumeration order; two runs over identical inputs with any
admissible enumeration orders agree on external resources, load steps and
sub-resource display names, and their sub-resource lists agree position by
position up to a permutation of each skin-change track list.  Byte-identical
output is guaranteed only when the two enumerations coincide. -/
theorem claim_c6_amended (pick₁ pick₂ : List String → List String)
    (files : List (String × SpineJson)) (n t : String) (e s : Option String)
    (m₁ m₂ : MainNode) (h₁p : SetPick pick₁) (h₂p : SetPick pick₂)
    (h₁ : build_tree pick₁ files n t e s = .ok m₁)
    (h₂ : build_tree pick₂ files n t e s = .ok m₂) :
    m₁.ext_resources = m₂.ext_resources ∧
    m₁.load_steps = m₂.load_steps ∧
    m₁.sub_resources.map SubResource.resource_name =
      m₂.sub_resources.map SubResource.resource_name ∧
    List.Forall₂ TrackPermRel m₁.sub_resources m₂.sub_resources := by
  obtain ⟨a1, hf1, hp1, hm1⟩ := build_tree_ok_elim h₁
  obtain ⟨a2, hf2, hp2, hm2⟩ := build_tree_ok_elim h₂
  have ha : a1 = a2 := Except.ok.inj (hf1.symm.trans hf2)
  subst ha
  have hsub1 : m₁.sub_resources =
      (attachExtra a1 e).sub_resources.map
        (addSkinTracks (pick₁ (skinNodeNames (attachExtra a1 e).sub_resources))) := by
    rw [hm1]
    rfl
  have hsub2 : m₂.sub_resources =
      (attachExtra a1 e).sub_resources.map
        (addSkinTracks (pick₂ (skinNodeNames (attachExtra a1 e).sub_resources))) := by
    rw [hm2]
    rfl
  have hABperm : (pick₁ (skinNodeNames (attachExtra a1 e).sub_resources)).Perm
      (pick₂ (skinNodeNames (attachExtra a1 e).sub_resources)) := by
    obtain ⟨hn1, hm1'⟩ := h₁p (skinNodeNames (attachExtra a1 e).sub_resources)
    obtain ⟨hn2, hm2'⟩ := h₂p (skinNodeNames (attachExtra a1 e).sub_resources)
    exact perm_of_nodup_ext hn1 hn2 (fun x => by rw [hm1' x, hm2' x])
  have hcomp : ∀ ns : List String,
      (SubResource.resource_name ∘ addSkinTracks ns) = SubResource.resource_name := by
    intro ns
    funext sr
    exact resource_name_addSkinTracks ns sr
  refine ⟨?_, ?_, ?_, ?_⟩
  · rw [hm1, hm2]
    rfl
  · rw [hm1, hm2]
    simp [MainNode.set_load_steps, fixPure, List.length_map]
  · rw [hsub1, hsub2, List.map_map, List.map_map, hcomp, hcomp]
  · rw [hsub1, hsub2, List.forall₂_map_left_iff, List.forall₂_map_right_iff,
      List.forall₂_same]
    intro sr hsr
    cases sr with
    | play b nn => exact ⟨rfl, rfl⟩
    | skin b nn tr =>
      exact ⟨rfl, rfl, List.Perm.append_left tr (hABperm.filter _)⟩

/-- Three skin-declaring input files for the C6 counterexample and witness. -/
def c6files : List (String × SpineJson) :=
  [("a", ⟨some [], some ["s"]⟩), ("b", ⟨some [], some ["s"]⟩), ("c", ⟨some [], some ["s"]⟩)]

/-- Claim C6 (counterexample): two admissible enumerations of the same
skin-node set (forward and reversed deduplication, shown explicitly on the
node-name list the build produces) lead to byte-different serialized outputs
for identical input files in identical order, so the output is not a function
of the inputs alone. -/
theorem claim_c6_counterexample :
    pickDedup ["spine_a", "spine_b", "spine_c"] = ["spine_a", "spine_b", "spine_c"] ∧
    pickRevDedup ["spine_a", "spine_b", "spine_c"] = ["spine_c", "spine_b", "spine_a"] ∧
    runCore pickDedup c6files "player" "KinematicBody2D" none none ≠
      runCore pickRevDedup c6files "player" "KinematicBody2D" none none := by
  refine ⟨by decide, by decide, by decide⟩

/-- Concrete build of the dedup run for the C6 witness. -/
def w6m1 : MainNode :=
  (build_tree pickDedup c6files "player" "KinematicBody2D" none none).toOption.getD default

/-- Concrete build of the reversed-dedup run for the C6 witness. -/
def w6m2 : MainNode :=
  (build_tree pickRevDedup c6files "player" "KinematicBody2D" none none).toOption.getD default

/-- Claim C6 (witness): the amended agreement evaluated on the two concrete
runs of the counterexample input. -/
theorem claim_c6_witness :
    List.Forall₂ TrackPermRel w6m1.sub_resources w6m2.sub_resources ∧
    w6m1.sub_resources.map SubResource.resource_name =
      w6m2.sub_resources.map SubResource.resource_name := by
  have h := claim_c6_amended pickDedup pickRevDedup c6files "player" "KinematicBody2D"
    none none w6m1 w6m2 setPick_pickDedup setPick_pickRevDedup (by rfl) (by rfl)
  exact ⟨h.2.2.2, h.2.2.1⟩
